import Mathlib

/-!
Verification of the datagolf proxy backend against its specification.

The definitions below are shallow embeddings of the JavaScript sources:
* `CacheService` — src/src/services/cacheService.js
* `SessionManager` — src/src/middleware/sessionManager.js
* `DataGolfClient` — src/src/services/dataGolfClient.js
* `DataGolfService` — the service class bundled in
  src/tests/unit/middleware/requestLogger.test.js (circuit breaker,
  rate limiter and `_executeWithCaching`)

JavaScript objects used as string-keyed dictionaries are embedded as
association lists in insertion order (`Map` iteration order), machine
integers as `Nat`, `Date.now()` and `new Date().toISOString()` as explicit
time parameters, and thrown exceptions as `Option`/`none` results.
-/

namespace JsMap

/-- Lookup of `m.get(k)` / `params[key]` in an insertion-ordered map
embedded as an association list (first binding wins). -/
def mget [DecidableEq α] : List (α × β) → α → Option β
  | [], _ => none
  | (a, b) :: t, k => if a = k then some b else mget t k

/-- Embeds `Map.prototype.set`: an existing key is overwritten in place
(keeping its position in iteration order), a new key is appended. -/
def mset [DecidableEq α] : List (α × β) → α → β → List (α × β)
  | [], k, v => [(k, v)]
  | (a, b) :: t, k, v => if a = k then (a, v) :: t else (a, b) :: mset t k v

/-- Embeds `Map.prototype.delete` (removes the binding of the key, if any). -/
def mdelete [DecidableEq α] : List (α × β) → α → List (α × β)
  | [], _ => []
  | (a, b) :: t, k => if a = k then t else (a, b) :: mdelete t k

theorem mget_mset_self [DecidableEq α] (m : List (α × β)) (k : α) (v : β) :
    mget (mset m k v) k = some v := by
  induction m with
  | nil => simp [mget, mset]
  | cons p t ih =>
    obtain ⟨a, b⟩ := p
    by_cases h : a = k
    · simp [mget, mset, h]
    · simp [mget, mset, h, ih]

theorem mget_mset_ne [DecidableEq α] (m : List (α × β)) (k q : α) (v : β)
    (h : k ≠ q) : mget (mset m k v) q = mget m q := by
  induction m with
  | nil => simp [mget, mset, h]
  | cons p t ih =>
    obtain ⟨a, b⟩ := p
    by_cases ha : a = k
    · subst ha
      simp [mget, mset, h]
    · simp [mget, mset, ha, ih]

theorem mget_eq_none_of_not_mem [DecidableEq α] (m : List (α × β)) (k : α)
    (h : k ∉ m.map Prod.fst) : mget m k = none := by
  induction m with
  | nil => rfl
  | cons p t ih =>
    obtain ⟨a, b⟩ := p
    simp only [List.map_cons, List.mem_cons] at h
    push_neg at h
    have hak : ¬ a = k := fun hak => h.1 hak.symm
    simp [mget, hak, ih h.2]

theorem mget_mdelete_self [DecidableEq α] (m : List (α × β)) (k : α)
    (hnd : (m.map Prod.fst).Nodup) : mget (mdelete m k) k = none := by
  induction m with
  | nil => simp [mget, mdelete]
  | cons p t ih =>
    obtain ⟨a, b⟩ := p
    simp only [List.map_cons, List.nodup_cons] at hnd
    by_cases ha : a = k
    · subst ha
      simp only [mdelete, if_pos rfl]
      exact mget_eq_none_of_not_mem t a hnd.1
    · simp [mdelete, ha, mget, ih hnd.2]

/-- Two association lists holding the same bindings (a permutation, with
no duplicate keys) answer every lookup identically. -/
theorem mget_perm [DecidableEq α] {m₁ m₂ : List (α × β)} (hp : m₁.Perm m₂)
    (hnd : (m₁.map Prod.fst).Nodup) (q : α) : mget m₁ q = mget m₂ q := by
  induction hp with
  | nil => rfl
  | cons x h ih =>
    obtain ⟨a, b⟩ := x
    simp only [List.map_cons, List.nodup_cons] at hnd
    by_cases ha : a = q
    · simp [mget, ha]
    · simp [mget, ha, ih hnd.2]
  | swap x y l =>
    obtain ⟨a, b⟩ := x
    obtain ⟨c, d⟩ := y
    simp only [List.map_cons, List.nodup_cons, List.mem_cons] at hnd
    push_neg at hnd
    by_cases ha : a = q
    · by_cases hc : c = q
      · exact absurd (hc.trans ha.symm) hnd.1.1
      · simp [mget, ha, hc]
    · by_cases hc : c = q
      · simp [mget, ha, hc]
      · simp [mget, ha, hc]
  | trans h₁ h₂ ih₁ ih₂ =>
    have hnd' : (_ : List α).Nodup := ((h₁.map Prod.fst).nodup_iff).mp hnd
    rw [ih₁ hnd, ih₂ hnd']

end JsMap

namespace CacheService

open JsMap

/-- Embeds the `keyPatterns` object literal of the `CacheService`
constructor (cacheService.js lines 32–39). -/
def keyPatterns : List (String × String) :=
  [("tournament", "tournament:"),
   ("rankings", "rankings:"),
   ("field", "field:"),
   ("scoring", "scoring:"),
   ("playerStats", "player-stats:"),
   ("bettingOdds", "betting-odds:")]

/-- Embeds `baseKey.slice(0, -1)`: the string with its final character
removed (and the empty string unchanged). -/
def sliceDropLast (s : String) : String := ⟨s.data.dropLast⟩

/-- Embeds `CacheService.generateKey(pattern, params)` (cacheService.js
lines 61–69): resolve the base key through `keyPatterns` (falling back to
the pattern itself), sort the parameter names, join `name:value` pieces
with `|`, and either append them to the base key or, when there are no
parameters, return the base key with its last character sliced off. -/
def generateKey (pattern : String) (params : List (String × String)) : String :=
  let baseKey := (mget keyPatterns pattern).getD pattern
  let sortedKeys := List.insertionSort (· ≤ ·) (params.map Prod.fst)
  let paramString :=
    String.intercalate "|"
      (sortedKeys.map (fun k => k ++ ":" ++ (mget params k).getD "undefined"))
  if paramString ≠ "" then baseKey ++ paramString else sliceDropLast baseKey

end CacheService

namespace CacheService

open JsMap

/-- C9: for every endpoint pattern and every two parameter maps containing
the same key/value pairs in different orders (same bindings, no duplicate
names), `generateKey` produces the identical cache key. -/
theorem generateKey_order_independent (pattern : String)
    (p₁ p₂ : List (String × String)) (hperm : p₁.Perm p₂)
    (hnd : (p₁.map Prod.fst).Nodup) :
    generateKey pattern p₁ = generateKey pattern p₂ := by
  have hk : (p₁.map Prod.fst).Perm (p₂.map Prod.fst) := hperm.map Prod.fst
  have hsorted :
      List.insertionSort (· ≤ ·) (p₁.map Prod.fst) =
        List.insertionSort (· ≤ ·) (p₂.map Prod.fst) :=
    List.eq_of_perm_of_sorted
      ((List.perm_insertionSort _ _).trans
        (hk.trans (List.perm_insertionSort _ _).symm))
      (List.sorted_insertionSort _ _) (List.sorted_insertionSort _ _)
  have hmap :
      (List.insertionSort (· ≤ ·) (p₂.map Prod.fst)).map
          (fun k => k ++ ":" ++ (mget p₁ k).getD "undefined") =
        (List.insertionSort (· ≤ ·) (p₂.map Prod.fst)).map
          (fun k => k ++ ":" ++ (mget p₂ k).getD "undefined") := by
    apply List.map_congr_left
    intro k _
    rw [mget_perm hperm hnd k]
  simp only [generateKey]
  rw [hsorted, hmap]

/-- Witness for C9 at a concrete pair of orderings of the same map. -/
theorem generateKey_order_independent_witness :
    ([("b", "2"), ("a", "1")] : List (String × String)).Perm
        [("a", "1"), ("b", "2")] ∧
      (([("b", "2"), ("a", "1")] : List (String × String)).map Prod.fst).Nodup ∧
      generateKey "tournament" [("b", "2"), ("a", "1")] =
        generateKey "tournament" [("a", "1"), ("b", "2")] :=
  ⟨by decide, by decide,
    generateKey_order_independent "tournament" _ _ (by decide) (by decide)⟩

/-- C4: the generated cache key is NOT independent of the value of a
sensitive parameter: `generateKey` performs no filtering of sensitive
parameter names, so changing only the `api_key` value changes the key.
This evaluates the code at the failing input of the corresponding bug
report. -/
theorem generateKey_depends_on_sensitive_value :
    generateKey "tournament" [("api_key", "A")] = "tournament:api_key:A" ∧
      generateKey "tournament" [("api_key", "B")] = "tournament:api_key:B" ∧
      generateKey "tournament" [("api_key", "A")] ≠
        generateKey "tournament" [("api_key", "B")] := by
  refine ⟨?_, ?_, ?_⟩ <;> decide

/-- C10: with an empty parameter map `generateKey` returns the resolved
base key with its final character sliced off: registered patterns lose
their trailing colon, and an unregistered non-empty pattern loses its own
last character, so the result differs from the pattern itself. -/
theorem generateKey_empty_params (p : String)
    (h₁ : mget keyPatterns p = none) (h₂ : p ≠ "") :
    generateKey "tournament" [] = "tournament" ∧
      generateKey "rankings" [] = "rankings" ∧
      generateKey "field" [] = "field" ∧
      generateKey "scoring" [] = "scoring" ∧
      generateKey "playerStats" [] = "player-stats" ∧
      generateKey "bettingOdds" [] = "betting-odds" ∧
      generateKey p [] = sliceDropLast p ∧
      generateKey p [] ≠ p := by
  have hbase : generateKey p [] = sliceDropLast ((mget keyPatterns p).getD p) :=
    rfl
  have hslice : generateKey p [] = sliceDropLast p := by
    rw [hbase, h₁]
    rfl
  refine ⟨by decide, by decide, by decide, by decide, by decide, by decide,
    hslice, ?_⟩
  rw [hslice]
  intro heq
  have hd : p.data.dropLast = p.data := congrArg String.data heq
  have hlen : p.data.dropLast.length = p.data.length := congrArg List.length hd
  rw [List.length_dropLast] at hlen
  have hne : p.data ≠ [] := by
    intro hnil
    apply h₂
    cases p
    simp only at hnil
    rw [hnil]
  have hpos : 0 < p.data.length := List.length_pos.mpr hne
  omega

/-- Witness for C10 at the concrete unregistered pattern "custom". -/
theorem generateKey_empty_params_witness :
    mget keyPatterns "custom" = none ∧ "custom" ≠ "" ∧
      (generateKey "custom" [] = sliceDropLast "custom" ∧
        generateKey "custom" [] ≠ "custom") :=
  ⟨by decide, by decide,
    (generateKey_empty_params "custom" (by decide) (by decide)).2.2.2.2.2.2⟩

end CacheService

namespace CacheService

open JsMap

/-- Embeds the cache entry object `{data, timestamp, ttl, accessCount}`
built by `CacheService.set` and `_setToL1`/`_setToL2`/`_setToL3`.
`ttl` is in seconds; the JavaScript falsy values `null` and `0` for `ttl`
are both embedded as `0` (they behave identically in `_isExpired`). -/
structure Entry (V : Type) where
  data : V
  timestamp : Nat
  ttl : Nat
  accessCount : Nat
deriving DecidableEq

/-- Per-tier slice of the configuration `this.cacheConfig.l1/l2/l3`. -/
structure TierConfig where
  enabled : Bool
  maxSize : Nat
  ttl : Nat
deriving DecidableEq

/-- The `cache` section of the configuration. -/
structure Config where
  l1 : TierConfig
  l2 : TierConfig
  l3 : TierConfig
deriving DecidableEq

/-- The mutable maps of a `CacheService` instance (the `ttlTimers` map,
which only schedules asynchronous deletes, is not part of the state the
claims depend on). -/
structure CacheState (V : Type) where
  l1 : List (String × Entry V)
  l1AccessOrder : List (String × Nat)
  l2 : List (String × Entry V)
  l3 : List (String × Entry V)
  l1Evictions : Nat
  l2Evictions : Nat
  l3Evictions : Nat
deriving DecidableEq

/-- A freshly constructed `CacheService`: all maps empty. -/
def emptyState (V : Type) : CacheState V := ⟨[], [], [], [], 0, 0, 0⟩

/-- Embeds `_isExpired(entry)`: a falsy `ttl` never expires, otherwise the
entry is expired once `Date.now() - entry.timestamp > entry.ttl * 1000`.
Natural subtraction truncates at zero exactly like the negative JavaScript
difference, which is never greater than a positive threshold. -/
def isExpired (e : Entry V) (now : Nat) : Bool :=
  if e.ttl = 0 then false else decide (now - e.timestamp > e.ttl * 1000)

/-- Embeds the JavaScript expression `ttl || default` where `ttl` is the
optional argument of `set` (absent arguments and the falsy `0` both select
the default). -/
def jsOrNat : Option Nat → Nat → Nat
  | none, d => d
  | some v, d => if v = 0 then d else v

/-- Embeds `_evictFromL1()`: delete the first key in `l1AccessOrder`
iteration order (the least recently used entry).  The guard
`if (oldestKey)` skips the eviction when the map is empty — and, because
the empty string is falsy, also when the oldest key is `""`. -/
def evictFromL1 (st : CacheState V) : CacheState V :=
  match st.l1AccessOrder.head? with
  | none => st
  | some (k, _) =>
      if k = "" then st
      else
        { st with
          l1 := mdelete st.l1 k
          l1AccessOrder := mdelete st.l1AccessOrder k
          l1Evictions := st.l1Evictions + 1 }

/-- Embeds `_evictFromL2()`: FIFO — delete the first key of the `l2` map,
with the same falsy-key guard as L1. -/
def evictFromL2 (st : CacheState V) : CacheState V :=
  match st.l2.head? with
  | none => st
  | some (k, _) =>
      if k = "" then st
      else { st with l2 := mdelete st.l2 k, l2Evictions := st.l2Evictions + 1 }

/-- Embeds the scan of `_evictFromL3()`: fold over the entries keeping the
first key whose `accessCount` is strictly smaller than the best so far
(`leastUsedCount` starts at `Infinity`, embedded as the `none`
accumulator). -/
def lfuScan (l : List (String × Entry V)) : Option (String × Nat) :=
  l.foldl
    (fun acc p =>
      match acc with
      | none => some (p.1, p.2.accessCount)
      | some (bk, bc) =>
          if p.2.accessCount < bc then some (p.1, p.2.accessCount)
          else some (bk, bc))
    none

/-- Embeds `_evictFromL3()`: LFU — delete the first key with the least
`accessCount`, with the same falsy-key guard. -/
def evictFromL3 (st : CacheState V) : CacheState V :=
  match lfuScan st.l3 with
  | none => st
  | some (k, _) =>
      if k = "" then st
      else { st with l3 := mdelete st.l3 k, l3Evictions := st.l3Evictions + 1 }

/-- Embeds `_setToL1(key, data, ttl)` on the path where `data` is a cache
entry object (every caller inside `set` passes the freshly built
`cacheEntry`, whose `timestamp` comes from `Date.now()` and is truthy, so
the guard `typeof data === 'object' && data.timestamp` selects the entry
as-is).  Evicts first whenever the map is at or above `maxSize`, then
writes the entry and the access-order stamp.  The `ttl` argument is only
used by the asynchronous `_setTTLTimer`, which is outside the modelled
state. -/
def setToL1 (cfg : Config) (st : CacheState V) (k : String) (e : Entry V)
    (ttl : Nat) (now : Nat) : CacheState V :=
  let st1 := if st.l1.length ≥ cfg.l1.maxSize then evictFromL1 st else st
  { st1 with
    l1 := mset st1.l1 k e
    l1AccessOrder := mset st1.l1AccessOrder k now }

/-- Embeds `_setToL2(key, data, ttl)` on the same entry-object path: the
`ttl` argument is ignored because the entry already carries a truthy
`timestamp`. -/
def setToL2 (cfg : Config) (st : CacheState V) (k : String) (e : Entry V)
    (ttl : Nat) : CacheState V :=
  let st1 := if st.l2.length ≥ cfg.l2.maxSize then evictFromL2 st else st
  { st1 with l2 := mset st1.l2 k e }

/-- Embeds `_setToL3(key, data, ttl)` on the same entry-object path. -/
def setToL3 (cfg : Config) (st : CacheState V) (k : String) (e : Entry V)
    (ttl : Nat) : CacheState V :=
  let st1 := if st.l3.length ≥ cfg.l3.maxSize then evictFromL3 st else st
  { st1 with l3 := mset st1.l3 k e }

/-- Embeds `CacheService.set(key, data, ttl = null)` (cacheService.js
lines 133–163): build one `cacheEntry` whose `ttl` is
`ttl || this.cacheConfig.l1.ttl`, then hand that same entry to every
enabled tier together with that tier's `ttl || default` argument. -/
def set (cfg : Config) (st : CacheState V) (k : String) (v : V)
    (ttl : Option Nat) (now : Nat) : CacheState V :=
  let cacheEntry : Entry V :=
    { data := v, timestamp := now, ttl := jsOrNat ttl cfg.l1.ttl
      accessCount := 0 }
  let st1 :=
    if cfg.l1.enabled then setToL1 cfg st k cacheEntry (jsOrNat ttl cfg.l1.ttl) now
    else st
  let st2 :=
    if cfg.l2.enabled then setToL2 cfg st1 k cacheEntry (jsOrNat ttl cfg.l2.ttl)
    else st1
  if cfg.l3.enabled then setToL3 cfg st2 k cacheEntry (jsOrNat ttl cfg.l3.ttl)
  else st2

end CacheService

namespace CacheService

open JsMap

theorem evictFromL1_l2 (st : CacheState V) : (evictFromL1 st).l2 = st.l2 := by
  unfold evictFromL1
  cases st.l1AccessOrder.head? with
  | none => rfl
  | some p =>
    obtain ⟨k, t⟩ := p
    by_cases hk : k = "" <;> simp [hk]

theorem evictFromL1_l3 (st : CacheState V) : (evictFromL1 st).l3 = st.l3 := by
  unfold evictFromL1
  cases st.l1AccessOrder.head? with
  | none => rfl
  | some p =>
    obtain ⟨k, t⟩ := p
    by_cases hk : k = "" <;> simp [hk]

theorem evictFromL2_l1 (st : CacheState V) : (evictFromL2 st).l1 = st.l1 := by
  unfold evictFromL2
  cases st.l2.head? with
  | none => rfl
  | some p =>
    obtain ⟨k, t⟩ := p
    by_cases hk : k = "" <;> simp [hk]

theorem evictFromL2_l3 (st : CacheState V) : (evictFromL2 st).l3 = st.l3 := by
  unfold evictFromL2
  cases st.l2.head? with
  | none => rfl
  | some p =>
    obtain ⟨k, t⟩ := p
    by_cases hk : k = "" <;> simp [hk]

theorem evictFromL3_l1 (st : CacheState V) : (evictFromL3 st).l1 = st.l1 := by
  unfold evictFromL3
  cases lfuScan st.l3 with
  | none => rfl
  | some p =>
    obtain ⟨k, t⟩ := p
    by_cases hk : k = "" <;> simp [hk]

theorem evictFromL3_l2 (st : CacheState V) : (evictFromL3 st).l2 = st.l2 := by
  unfold evictFromL3
  cases lfuScan st.l3 with
  | none => rfl
  | some p =>
    obtain ⟨k, t⟩ := p
    by_cases hk : k = "" <;> simp [hk]

theorem setToL1_l2 (cfg : Config) (st : CacheState V) (k : String)
    (e : Entry V) (ttl now : Nat) : (setToL1 cfg st k e ttl now).l2 = st.l2 := by
  unfold setToL1
  by_cases h : st.l1.length ≥ cfg.l1.maxSize <;> simp [h, evictFromL1_l2]

theorem setToL1_l3 (cfg : Config) (st : CacheState V) (k : String)
    (e : Entry V) (ttl now : Nat) : (setToL1 cfg st k e ttl now).l3 = st.l3 := by
  unfold setToL1
  by_cases h : st.l1.length ≥ cfg.l1.maxSize <;> simp [h, evictFromL1_l3]

theorem setToL2_l1 (cfg : Config) (st : CacheState V) (k : String)
    (e : Entry V) (ttl : Nat) : (setToL2 cfg st k e ttl).l1 = st.l1 := by
  unfold setToL2
  by_cases h : st.l2.length ≥ cfg.l2.maxSize <;> simp [h, evictFromL2_l1]

theorem setToL2_l3 (cfg : Config) (st : CacheState V) (k : String)
    (e : Entry V) (ttl : Nat) : (setToL2 cfg st k e ttl).l3 = st.l3 := by
  unfold setToL2
  by_cases h : st.l2.length ≥ cfg.l2.maxSize <;> simp [h, evictFromL2_l3]

theorem setToL3_l1 (cfg : Config) (st : CacheState V) (k : String)
    (e : Entry V) (ttl : Nat) : (setToL3 cfg st k e ttl).l1 = st.l1 := by
  unfold setToL3
  by_cases h : st.l3.length ≥ cfg.l3.maxSize <;> simp [h, evictFromL3_l1]

theorem setToL3_l2 (cfg : Config) (st : CacheState V) (k : String)
    (e : Entry V) (ttl : Nat) : (setToL3 cfg st k e ttl).l2 = st.l2 := by
  unfold setToL3
  by_cases h : st.l3.length ≥ cfg.l3.maxSize <;> simp [h, evictFromL3_l2]

theorem mget_setToL1_self (cfg : Config) (st : CacheState V) (k : String)
    (e : Entry V) (ttl now : Nat) :
    mget (setToL1 cfg st k e ttl now).l1 k = some e := by
  unfold setToL1
  by_cases h : st.l1.length ≥ cfg.l1.maxSize <;> simp [h, mget_mset_self]

theorem mget_setToL2_self (cfg : Config) (st : CacheState V) (k : String)
    (e : Entry V) (ttl : Nat) :
    mget (setToL2 cfg st k e ttl).l2 k = some e := by
  unfold setToL2
  by_cases h : st.l2.length ≥ cfg.l2.maxSize <;> simp [h, mget_mset_self]

theorem mget_setToL3_self (cfg : Config) (st : CacheState V) (k : String)
    (e : Entry V) (ttl : Nat) :
    mget (setToL3 cfg st k e ttl).l3 k = some e := by
  unfold setToL3
  by_cases h : st.l3.length ≥ cfg.l3.maxSize <;> simp [h, mget_mset_self]

/-- C2 counterexample: with per-tier default TTLs 1 s (L1), 100 s (L2) and
10000 s (L3) and no explicit TTL, the copies written into L2 and L3 carry
the L1 default of 1 second — `set` builds a single entry with
`ttl || l1.ttl` and `_setToL2`/`_setToL3` ignore their per-tier `ttl`
argument because the entry object already has a truthy `timestamp`.  Three
seconds after insertion the L2 and L3 copies are already expired, although
2995 ms is far below both tiers' configured defaults. -/
theorem set_l2_l3_copies_use_l1_ttl_cex :
    let cfg : Config := ⟨⟨true, 10, 1⟩, ⟨true, 10, 100⟩, ⟨true, 10, 10000⟩⟩
    let st := set cfg (emptyState Nat) "k" 0 none 5
    (mget st.l2 "k").map Entry.ttl = some 1 ∧
      (mget st.l2 "k").map (fun e => isExpired e 3000) = some true ∧
      ¬ 3000 - 5 > 100 * 1000 ∧
      (mget st.l3 "k").map Entry.ttl = some 1 ∧
      (mget st.l3 "k").map (fun e => isExpired e 3000) = some true := by
  decide

/-- C2 amended: when `set` is called with no explicit TTL, every enabled
tier stores the same entry, whose `ttl` is L1's configured default — the
per-tier defaults computed at the call sites of `_setToL2`/`_setToL3` are
ignored. -/
theorem set_default_ttl_is_l1_everywhere {V : Type} (cfg : Config)
    (st : CacheState V) (k : String) (v : V) (now : Nat)
    (h1 : cfg.l1.enabled = true) (h2 : cfg.l2.enabled = true)
    (h3 : cfg.l3.enabled = true) :
    mget (set cfg st k v none now).l1 k = some ⟨v, now, cfg.l1.ttl, 0⟩ ∧
      mget (set cfg st k v none now).l2 k = some ⟨v, now, cfg.l1.ttl, 0⟩ ∧
      mget (set cfg st k v none now).l3 k = some ⟨v, now, cfg.l1.ttl, 0⟩ := by
  simp only [set, h1, h2, h3, if_true, jsOrNat]
  refine ⟨?_, ?_, ?_⟩
  · rw [setToL3_l1, setToL2_l1, mget_setToL1_self]
  · rw [setToL3_l2, mget_setToL2_self]
  · rw [mget_setToL3_self]

/-- Witness for the amended C2 statement at a concrete configuration. -/
theorem set_default_ttl_is_l1_everywhere_witness :
    let cfg : Config := ⟨⟨true, 10, 1⟩, ⟨true, 10, 100⟩, ⟨true, 10, 10000⟩⟩
    cfg.l1.enabled = true ∧ cfg.l2.enabled = true ∧ cfg.l3.enabled = true ∧
      (mget (set cfg (emptyState Nat) "k" 7 none 5).l1 "k" =
          some ⟨7, 5, 1, 0⟩ ∧
        mget (set cfg (emptyState Nat) "k" 7 none 5).l2 "k" =
          some ⟨7, 5, 1, 0⟩ ∧
        mget (set cfg (emptyState Nat) "k" 7 none 5).l3 "k" =
          some ⟨7, 5, 1, 0⟩) :=
  ⟨rfl, rfl, rfl,
    set_default_ttl_is_l1_everywhere _ _ "k" 7 5 rfl rfl rfl⟩

/-- C5 counterexample: an L1 tier at capacity (`maxSize = 2`, keys "a" and
"b" present) receiving a `_setToL1` for the already-present key "b" still
evicts the least-recently-used entry "a" — the eviction check
`size >= maxSize` does not ask whether the key is new, so an overwrite at
capacity does not leave the other entries unchanged. -/
theorem setToL1_overwrite_at_capacity_evicts_cex :
    let cfg : Config := ⟨⟨true, 2, 60⟩, ⟨true, 10, 60⟩, ⟨true, 10, 60⟩⟩
    let st : CacheState Nat :=
      ⟨[("a", ⟨10, 1, 60, 0⟩), ("b", ⟨20, 2, 60, 0⟩)], [("a", 1), ("b", 2)],
        [], [], 0, 0, 0⟩
    let st' := setToL1 cfg st "b" ⟨99, 5, 60, 0⟩ 60 5
    mget st'.l1 "b" = some ⟨99, 5, 60, 0⟩ ∧
      mget st'.l1 "a" = none ∧
      st'.l1Evictions = 1 := by
  decide

/-- C5 amended: whenever the L1 tier holds at least `maxSize` entries
before the insert, `_setToL1` evicts exactly one entry — the first key in
access order, i.e. the least recently used — regardless of whether the
inserted key is already present; the inserted key then maps to the new
entry. -/
theorem setToL1_at_capacity_always_evicts {V : Type} (cfg : Config)
    (st : CacheState V) (k h : String) (e : Entry V) (ttl now t0 : Nat)
    (hcap : st.l1.length ≥ cfg.l1.maxSize)
    (hhead : st.l1AccessOrder.head? = some (h, t0))
    (hh : h ≠ "")
    (hnd : (st.l1.map Prod.fst).Nodup) :
    (setToL1 cfg st k e ttl now).l1Evictions = st.l1Evictions + 1 ∧
      mget (setToL1 cfg st k e ttl now).l1 k = some e ∧
      (h ≠ k → mget (setToL1 cfg st k e ttl now).l1 h = none) := by
  have hev : evictFromL1 st =
      { st with
        l1 := mdelete st.l1 h
        l1AccessOrder := mdelete st.l1AccessOrder h
        l1Evictions := st.l1Evictions + 1 } := by
    unfold evictFromL1
    rw [hhead]
    exact if_neg hh
  refine ⟨?_, ?_, ?_⟩
  · simp [setToL1, if_pos hcap, hev]
  · simp [setToL1, if_pos hcap, hev, mget_mset_self]
  · intro hk
    have hk' : k ≠ h := fun hkh => hk hkh.symm
    simp only [setToL1, if_pos hcap, hev]
    rw [mget_mset_ne _ _ _ _ hk']
    exact mget_mdelete_self st.l1 h hnd

/-- Witness for the amended C5 statement: overwriting the present key "b"
in a full tier evicts "a". -/
theorem setToL1_at_capacity_always_evicts_witness :
    let cfg : Config := ⟨⟨true, 2, 60⟩, ⟨true, 10, 60⟩, ⟨true, 10, 60⟩⟩
    let st : CacheState Nat :=
      ⟨[("a", ⟨10, 1, 60, 0⟩), ("b", ⟨20, 2, 60, 0⟩)], [("a", 1), ("b", 2)],
        [], [], 0, 0, 0⟩
    st.l1.length ≥ cfg.l1.maxSize ∧
      st.l1AccessOrder.head? = some ("a", 1) ∧
      (st.l1.map Prod.fst).Nodup ∧
      (setToL1 cfg st "b" ⟨99, 5, 60, 0⟩ 60 5).l1Evictions = 1 ∧
      mget (setToL1 cfg st "b" ⟨99, 5, 60, 0⟩ 60 5).l1 "b" =
        some ⟨99, 5, 60, 0⟩ ∧
      mget (setToL1 cfg st "b" ⟨99, 5, 60, 0⟩ 60 5).l1 "a" = none := by
  refine ⟨by decide, by decide, by decide, ?_, ?_, ?_⟩
  · exact (setToL1_at_capacity_always_evicts _ _ "b" "a" _ 60 5 1 (by decide)
      (by decide) (by decide) (by decide)).1
  · exact (setToL1_at_capacity_always_evicts _ _ "b" "a" _ 60 5 1 (by decide)
      (by decide) (by decide) (by decide)).2.1
  · exact (setToL1_at_capacity_always_evicts _ _ "b" "a" _ 60 5 1 (by decide)
      (by decide) (by decide) (by decide)).2.2 (by decide)

end CacheService

namespace SessionManager

/-- Abstract interface of the authenticated cipher obtained from
`crypto.createCipher('aes-256-gcm', key)` / `createDecipher`.  Both calls
treat their second argument as a password from which OpenSSL derives the
actual cipher key and IV, so encryption and decryption need only the
password, the associated data set with `setAAD`, and (for decryption) the
tag set with `setAuthTag`.  The fields record the two library guarantees
the session code relies on: the GCM tag is 16 bytes, and decrypting an
authentic (password, aad, tag, ciphertext) quadruple recovers the
plaintext. -/
structure AeadCipher where
  enc : List Nat → List Nat → List Nat → List Nat × List Nat
  dec : List Nat → List Nat → List Nat → List Nat → Option (List Nat)
  tag_len : ∀ k a p, (enc k a p).2.length = 16
  dec_enc : ∀ k a p, dec k a (enc k a p).2 (enc k a p).1 = some p

/-- Embeds `encryptSessionData(data, masterKey)` (sessionManager.js lines
46–74) at the level of the decoded token bytes.  `kdf` abstracts
`crypto.pbkdf2Sync(masterKey, salt, 100000, 32, 'sha256')`, `salt` and
`iv` are the fresh random buffers (32 and 16 bytes), and `plain` is the
UTF-8 JSON serialization of the record.  The layout is
`salt ∥ iv ∥ authTag ∥ ciphertext`; note that the generated `iv` is placed
in the token but is never passed to `createCipher`, which derives its own
IV from the password. -/
def encryptSessionData (C : AeadCipher) (kdf : String → List Nat → List Nat)
    (salt iv : List Nat) (masterKey : String) (plain : List Nat) : List Nat :=
  let key := kdf masterKey salt
  let et := C.enc key salt plain
  salt ++ iv ++ et.2 ++ et.1

/-- Embeds `decryptSessionData(token, masterKey)` (sessionManager.js lines
82–106): slice the token into salt (bytes 0–31), iv (32–47), tag (48–63)
and ciphertext (64–), re-derive the key from the salt, and decrypt.  The
sliced-out iv is dead — `createDecipher` never receives it — so the model
does not use bytes 32–47.  A thrown invalid-session error is `none`. -/
def decryptSessionData (C : AeadCipher) (kdf : String → List Nat → List Nat)
    (masterKey : String) (token : List Nat) : Option (List Nat) :=
  let salt := token.take 32
  let tag := (token.drop 48).take 16
  let ct := token.drop 64
  let key := kdf masterKey salt
  C.dec key salt tag ct

/-- Flip one bit of one byte of a byte string (identity when the index is
out of range). -/
def flipBit : List Nat → Nat → Nat → List Nat
  | [], _, _ => []
  | b :: t, 0, bit => Nat.xor b (2 ^ bit) :: t
  | b :: t, i + 1, bit => b :: flipBit t i bit

/-- Round-trip half of the session law: decrypting a token produced by
`encryptSessionData` under the same master key recovers the plaintext,
for any cipher satisfying the authenticated-encryption interface and any
properly sized salt and iv. -/
theorem decrypt_encrypt (C : AeadCipher) (kdf : String → List Nat → List Nat)
    (salt iv : List Nat) (masterKey : String) (plain : List Nat)
    (hs : salt.length = 32) (hi : iv.length = 16) :
    decryptSessionData C kdf masterKey
        (encryptSessionData C kdf salt iv masterKey plain) = some plain := by
  unfold encryptSessionData decryptSessionData
  have htag : (C.enc (kdf masterKey salt) salt plain).2.length = 16 :=
    C.tag_len _ _ _
  have htake : (salt ++ iv ++ (C.enc (kdf masterKey salt) salt plain).2 ++
      (C.enc (kdf masterKey salt) salt plain).1).take 32 = salt := by
    rw [List.append_assoc, List.append_assoc]
    exact List.take_left' hs
  have hdrop48 : (salt ++ iv ++ (C.enc (kdf masterKey salt) salt plain).2 ++
      (C.enc (kdf masterKey salt) salt plain).1).drop 48 =
      (C.enc (kdf masterKey salt) salt plain).2 ++
        (C.enc (kdf masterKey salt) salt plain).1 := by
    rw [List.append_assoc (salt ++ iv)]
    exact List.drop_left' (by rw [List.length_append, hs, hi])
  have hdrop64 : (salt ++ iv ++ (C.enc (kdf masterKey salt) salt plain).2 ++
      (C.enc (kdf masterKey salt) salt plain).1).drop 64 =
      (C.enc (kdf masterKey salt) salt plain).1 := by
    exact List.drop_left' (by
      rw [List.length_append, List.length_append, hs, hi, htag])
  rw [htake, hdrop48, hdrop64]
  rw [List.take_left' htag]
  exact C.dec_enc _ _ _

end SessionManager

namespace SessionManager

/-- Concrete instance of the `AeadCipher` interface, used to evaluate the
session functions at concrete inputs.  It stands in for the external
AES-256-GCM primitive; the property exercised below — the token bytes
holding the packed iv never influence decryption — depends only on the
slicing in `decryptSessionData`, not on the cipher. -/
def toyCipher : AeadCipher where
  enc := fun k a p => (p, List.replicate 16 ((k.sum + a.sum + p.sum) % 256))
  dec := fun k a tag ct =>
    if tag = List.replicate 16 ((k.sum + a.sum + ct.sum) % 256) then some ct
    else none
  tag_len := fun _ _ _ => List.length_replicate 16 _
  dec_enc := fun _ _ _ => if_pos rfl

/-- Concrete stand-in for `crypto.pbkdf2Sync(masterKey, salt, ...)`. -/
def toyKdf : String → List Nat → List Nat := fun mk salt => mk.length :: salt

/-- A concrete encrypted session token: record bytes [1, 2, 3], a 32-byte
zero salt, a 16-byte zero iv, master key "master". -/
def sampleToken : List Nat :=
  encryptSessionData toyCipher toyKdf (List.replicate 32 0)
    (List.replicate 16 0) "master" [1, 2, 3]

/-- C1 bug evidence: flipping a bit inside the iv segment of an encrypted
session token (byte 32, the first of the sixteen iv bytes the source packs
into the token) yields a different token that `decryptSessionData`
nevertheless accepts, returning the original record — the packed iv is
sliced out but never handed to the decipher, so its bits are not
authenticated and the claimed "any one-bit perturbation fails" is false on
the code. -/
theorem decrypt_accepts_iv_bitflip :
    flipBit sampleToken 32 0 ≠ sampleToken ∧
      decryptSessionData toyCipher toyKdf "master" (flipBit sampleToken 32 0) =
        some [1, 2, 3] := by
  refine ⟨?_, ?_⟩ <;> decide

end SessionManager

namespace DataGolfClient

/-- Outcome of one invocation of the `apiCall` thunk handed to
`_retryWithBackoff`: either a response value or a thrown error.  The error
payload embeds `error.response?.status` — `none` for network errors and
timeouts (no HTTP response), `some s` for an HTTP error status `s`. -/
inductive ApiResult (V : Type) where
  | ok (v : V)
  | err (status : Option Nat)
deriving DecidableEq

/-- Embeds `DataGolfClient._retryWithBackoff(apiCall, attempt)`
(dataGolfClient.js lines 95–113).  `apiCall` is modelled as a function of
the attempt number so that distinct attempts may behave differently; the
second component of the result counts how many times `apiCall` ran.  The
source rethrows once `attempt >= this.retryAttempts` and otherwise sleeps
`retryDelay * 2 ** (attempt - 1)` ms and recurses — the computed delay
does not alter the control flow. -/
def retryWithBackoff (retryAttempts retryDelay : Nat)
    (apiCall : Nat → ApiResult V) (attempt : Nat) : ApiResult V × Nat :=
  match apiCall attempt with
  | .ok v => (.ok v, 1)
  | .err e =>
      if attempt ≥ retryAttempts then (.err e, 1)
      else
        let delay := retryDelay * 2 ^ (attempt - 1)
        let r := retryWithBackoff retryAttempts delay (apiCall) (attempt + 1)
        (r.1, r.2 + 1)
termination_by retryAttempts - attempt
decreasing_by omega

/-- An `apiCall` thunk that fails with HTTP 404 on every attempt. -/
def always404 : Nat → ApiResult Nat := fun _ => ApiResult.err (some 404)

/-- C6 counterexample: an upstream call that always fails with HTTP 404 —
a 4xx status other than 429 — is attempted three times under the default
`retryAttempts = 3`, not once: `_retryWithBackoff` never inspects the
error's status, so non-retryable 4xx responses are retried like any other
failure. -/
theorem retry_retries_non429_4xx_cex :
    (retryWithBackoff 3 100 always404 1).2 = 3 ∧
      (retryWithBackoff 3 100 always404 1).1 = ApiResult.err (some 404) ∧
      (retryWithBackoff 3 100 always404 1).2 ≠ 1 := by
  have h1 : retryWithBackoff 3 100 always404 1 =
      (ApiResult.err (some 404), 3) := by
    rw [retryWithBackoff]
    simp only [always404]
    rw [retryWithBackoff]
    simp only [always404]
    rw [retryWithBackoff]
    simp only [always404]
    norm_num
  rw [h1]
  refine ⟨rfl, rfl, by decide⟩

/-- C6 amended: the retry loop is status-blind — every failing attempt is
retried, whatever the error carries (network error, timeout, 5xx, 429 or
any other 4xx), until `retryAttempts` attempts have run; a call that fails
every time is executed exactly `retryAttempts` times, ending in the same
error. -/
theorem retry_is_status_blind (V : Type) (e : Option Nat)
    (retryAttempts retryDelay : Nat) (h : 1 ≤ retryAttempts) :
    (retryWithBackoff retryAttempts retryDelay
          (fun _ => (ApiResult.err e : ApiResult V)) 1).2 = retryAttempts ∧
      (retryWithBackoff retryAttempts retryDelay
          (fun _ => (ApiResult.err e : ApiResult V)) 1).1 = ApiResult.err e := by
  have key : ∀ k attempt d, retryAttempts = attempt + k →
      (retryWithBackoff retryAttempts d
            (fun _ => (ApiResult.err e : ApiResult V)) attempt).2 = k + 1 ∧
        (retryWithBackoff retryAttempts d
            (fun _ => (ApiResult.err e : ApiResult V)) attempt).1 =
          ApiResult.err e := by
    intro k
    induction k with
    | zero =>
      intro attempt d hEq
      rw [retryWithBackoff]
      simp [show attempt ≥ retryAttempts by omega]
    | succ k ih =>
      intro attempt d hEq
      rw [retryWithBackoff]
      have hlt : ¬ attempt ≥ retryAttempts := by omega
      simp only [hlt, if_false]
      have := ih (attempt + 1) (d * 2 ^ (attempt - 1)) (by omega)
      simp [this.1, this.2]
  have := key (retryAttempts - 1) 1 retryDelay (by omega)
  refine ⟨?_, this.2⟩
  rw [this.1]
  omega

/-- Witness for the amended C6 statement: a permanent 404 under three
allowed attempts is called three times. -/
theorem retry_is_status_blind_witness :
    (1 : Nat) ≤ 3 ∧
      ((retryWithBackoff 3 100
            (fun _ => (ApiResult.err (some 404) : ApiResult Nat)) 1).2 = 3 ∧
        (retryWithBackoff 3 100
            (fun _ => (ApiResult.err (some 404) : ApiResult Nat)) 1).1 =
          ApiResult.err (some 404)) :=
  ⟨by decide, retry_is_status_blind Nat (some 404) 3 100 (by decide)⟩

end DataGolfClient

namespace DataGolfClient

/-- Embeds the JavaScript expression `a || b` over possibly-absent string
fields: `undefined`, `null` and the empty string are falsy. -/
def jsOr (a b : Option String) : Option String :=
  match a with
  | none => b
  | some s => if s = "" then b else some s

/-- Embeds `a || d` where the fallback is a present string constant. -/
def jsOrD (a : Option String) (d : String) : String :=
  match a with
  | none => d
  | some s => if s = "" then d else s

/-- Embeds `a || b` over possibly-absent numeric fields: `undefined`,
`null` and `0` are falsy. -/
def jsOrN (a b : Option Nat) : Option Nat :=
  match a with
  | none => b
  | some n => if n = 0 then b else some n

/-- Embeds `a || d` over numeric fields with a constant fallback. -/
def jsOrND (a : Option Nat) (d : Nat) : Nat :=
  match a with
  | none => d
  | some n => if n = 0 then d else n

/-- One element of the raw upstream tournament array, with every field the
transformer reads (absent fields are `none`). -/
structure RawTournament where
  dg_id : Option String
  id : Option String
  event_name : Option String
  name : Option String
  course : Option String
  event_start_date : Option String
  start_date : Option String
  event_end_date : Option String
  end_date : Option String
  calendar_year : Option String
  season : Option String
  tour : Option String
  event_status : Option String
  purse : Option String
  city : Option String
  state : Option String
  country : Option String
deriving DecidableEq

/-- The `location` object of a normalized tournament. -/
structure LocationOut where
  city : Option String
  state : Option String
  country : String
deriving DecidableEq

/-- One normalized tournament produced by `_transformTournamentData`. -/
structure TournamentOut where
  id : Option String
  name : Option String
  course : Option String
  startDate : Option String
  endDate : Option String
  season : Option String
  tour : String
  status : String
  purse : Option String
  location : LocationOut
  transformedAt : String
deriving DecidableEq

/-- The `metadata` object of a normalized list result. -/
structure Metadata where
  count : Nat
  transformedAt : String
deriving DecidableEq

/-- Result shape of `_transformTournamentData`. -/
structure TournamentsResult where
  tournaments : List TournamentOut
  metadata : Metadata
deriving DecidableEq

/-- Embeds `DataGolfClient._transformTournamentData(data)` (dataGolfClient.js
lines 202–232).  `data = none` covers the `!data || !Array.isArray(data)`
guard; `nowIso` is the value of `new Date().toISOString()`, which the
source reads once per mapped element and once for the metadata. -/
def transformTournamentData (data : Option (List RawTournament))
    (nowIso : String) : TournamentsResult :=
  match data with
  | none => ⟨[], ⟨0, nowIso⟩⟩
  | some l =>
      let tournaments : List TournamentOut := l.map (fun t =>
        { id := jsOr t.dg_id t.id
          name := jsOr t.event_name t.name
          course := jsOr t.course none
          startDate := jsOr t.event_start_date t.start_date
          endDate := jsOr t.event_end_date t.end_date
          season := jsOr t.calendar_year t.season
          tour := jsOrD t.tour "PGA"
          status := jsOrD t.event_status "scheduled"
          purse := jsOr t.purse none
          location :=
            { city := jsOr t.city none
              state := jsOr t.state none
              country := jsOrD t.country "USA" }
          transformedAt := nowIso })
      ⟨tournaments, ⟨tournaments.length, nowIso⟩⟩

/-- One element of the raw upstream rankings array. -/
structure RawRanking where
  dg_id : Option String
  player_id : Option String
  player_name : Option String
  name : Option String
  rank : Option Nat
  position : Option Nat
  points : Option Nat
  total_points : Option Nat
  avg_points : Option Nat
  events_played : Option Nat
  wins : Option Nat
  top_10s : Option Nat
  earnings : Option Nat
deriving DecidableEq

/-- One normalized ranking produced by `_transformRankingsData`. -/
structure RankingOut where
  playerId : Option String
  playerName : Option String
  rank : Option Nat
  points : Option Nat
  averagePoints : Option Nat
  eventsPlayed : Nat
  wins : Nat
  top10s : Nat
  earnings : Nat
  transformedAt : String
deriving DecidableEq

/-- Result shape of `_transformRankingsData`. -/
structure RankingsResult where
  rankings : List RankingOut
  metadata : Metadata
deriving DecidableEq

/-- Embeds `DataGolfClient._transformRankingsData(data)` (dataGolfClient.js
lines 240–265). -/
def transformRankingsData (data : Option (List RawRanking))
    (nowIso : String) : RankingsResult :=
  match data with
  | none => ⟨[], ⟨0, nowIso⟩⟩
  | some l =>
      let rankings : List RankingOut := l.map (fun p =>
        { playerId := jsOr p.dg_id p.player_id
          playerName := jsOr p.player_name p.name
          rank := jsOrN p.rank p.position
          points := jsOrN p.points p.total_points
          averagePoints := jsOrN p.avg_points none
          eventsPlayed := jsOrND p.events_played 0
          wins := jsOrND p.wins 0
          top10s := jsOrND p.top_10s 0
          earnings := jsOrND p.earnings 0
          transformedAt := nowIso })
      ⟨rankings, ⟨rankings.length, nowIso⟩⟩

/-- Erase the wall-clock stamps of a normalized tournament result, leaving
only the data actually derived from the raw body. -/
def stripTournamentTimes (r : TournamentsResult) : TournamentsResult :=
  ⟨r.tournaments.map (fun t => { t with transformedAt := "" }),
    ⟨r.metadata.count, ""⟩⟩

/-- Erase the wall-clock stamps of a normalized rankings result. -/
def stripRankingTimes (r : RankingsResult) : RankingsResult :=
  ⟨r.rankings.map (fun p => { p with transformedAt := "" }),
    ⟨r.metadata.count, ""⟩⟩

/-- C8 counterexample: the registered transformers are not deterministic
functions of the raw body alone — each application stamps the wall clock
into `transformedAt`, so applying the same transformer to the same raw
body at two different instants yields different normalized bodies. -/
theorem transformers_not_time_independent_cex :
    transformTournamentData none "2024-01-01T00:00:00Z" ≠
        transformTournamentData none "2024-01-01T00:00:01Z" ∧
      transformRankingsData none "2024-01-01T00:00:00Z" ≠
        transformRankingsData none "2024-01-01T00:00:01Z" := by
  refine ⟨?_, ?_⟩ <;> decide

/-- C8 amended: the transformers are deterministic up to the clock — every
field other than the `transformedAt` stamps is a function of the raw body,
so two applications at arbitrary instants agree after erasing the
stamps (and agree exactly when the instants coincide). -/
theorem transformers_deterministic_modulo_time
    (data : Option (List RawTournament)) (rdata : Option (List RawRanking))
    (t₁ t₂ : String) :
    stripTournamentTimes (transformTournamentData data t₁) =
        stripTournamentTimes (transformTournamentData data t₂) ∧
      stripRankingTimes (transformRankingsData rdata t₁) =
        stripRankingTimes (transformRankingsData rdata t₂) := by
  constructor
  · cases data with
    | none => rfl
    | some l =>
      simp only [transformTournamentData, stripTournamentTimes, List.map_map,
        List.length_map, TournamentsResult.mk.injEq, Metadata.mk.injEq]
      exact ⟨List.map_congr_left fun t _ => rfl, trivial⟩
  · cases rdata with
    | none => rfl
    | some l =>
      simp only [transformRankingsData, stripRankingTimes, List.map_map,
        List.length_map, RankingsResult.mk.injEq, Metadata.mk.injEq]
      exact ⟨List.map_congr_left fun p _ => rfl, trivial⟩

end DataGolfClient

namespace DataGolfService

/-- The three states of `this.circuitBreaker.state`. -/
inductive CBState where
  | CLOSED
  | OPEN
  | HALF_OPEN
deriving DecidableEq

/-- Embeds the `this.circuitBreaker` object of the `DataGolfService`
constructor.  `lastFailureTime` is initialized to `null`, which JavaScript
coerces to `0` in the arithmetic of `_checkCircuitBreaker`; the field is
only read after `_recordFailure` has stored a real timestamp. -/
structure CircuitBreaker where
  state : CBState
  failureCount : Nat
  lastFailureTime : Nat
  successCount : Nat
  threshold : Nat
  timeout : Nat
  resetThreshold : Nat
deriving DecidableEq

/-- The constructor's initial circuit breaker: CLOSED, threshold 5 failures,
60000 ms open timeout, 3 successes to reset. -/
def initCircuitBreaker : CircuitBreaker :=
  { state := .CLOSED, failureCount := 0, lastFailureTime := 0
    successCount := 0, threshold := 5, timeout := 60000, resetThreshold := 3 }

/-- Embeds `_checkCircuitBreaker()` (requestLogger.test.js lines 945–966):
returns whether the request is admitted together with the updated breaker.
CLOSED and HALF_OPEN always admit; OPEN admits — moving to HALF_OPEN with
`successCount = 0` — only when strictly more than `timeout` ms have passed
since the last failure. -/
def checkCircuitBreaker (cb : CircuitBreaker) (now : Nat) :
    Bool × CircuitBreaker :=
  match cb.state with
  | .CLOSED => (true, cb)
  | .OPEN =>
      if now - cb.lastFailureTime > cb.timeout then
        (true, { cb with state := .HALF_OPEN, successCount := 0 })
      else (false, cb)
  | .HALF_OPEN => (true, cb)

/-- Embeds `_recordSuccess()` (lines 972–982): in HALF_OPEN, count the
success and close the circuit at `resetThreshold`; in CLOSED, reset the
failure counter. -/
def recordSuccess (cb : CircuitBreaker) : CircuitBreaker :=
  match cb.state with
  | .HALF_OPEN =>
      let cb1 := { cb with successCount := cb.successCount + 1 }
      if cb1.successCount ≥ cb1.resetThreshold then
        { cb1 with state := .CLOSED, failureCount := 0 }
      else cb1
  | .CLOSED => { cb with failureCount := 0 }
  | .OPEN => cb

/-- Embeds `_recordFailure()` (lines 988–995): count the failure, stamp
the time, and open the circuit once the count reaches `threshold`. -/
def recordFailure (cb : CircuitBreaker) (now : Nat) : CircuitBreaker :=
  let cb1 := { cb with
    failureCount := cb.failureCount + 1, lastFailureTime := now }
  if cb1.failureCount ≥ cb1.threshold then { cb1 with state := .OPEN } else cb1

/-- Apply `_recordFailure` `n` times at the same instant. -/
def recordFailures : Nat → CircuitBreaker → Nat → CircuitBreaker
  | 0, cb, _ => cb
  | n + 1, cb, now => recordFailures n (recordFailure cb now) now

/-- Apply `_recordSuccess` `n` times. -/
def recordSuccesses : Nat → CircuitBreaker → CircuitBreaker
  | 0, cb => cb
  | n + 1, cb => recordSuccesses n (recordSuccess cb)

/-- Run `n` consecutive admission checks (with no results recorded in
between, i.e. `n` concurrent trial requests) and count how many are
admitted, threading the breaker state. -/
def admitCount : CircuitBreaker → Nat → Nat → Nat
  | _, _, 0 => 0
  | cb, now, n + 1 =>
      let r := checkCircuitBreaker cb now
      (if r.1 then 1 else 0) + admitCount r.2 now n

/-- In HALF_OPEN state every admission check admits and leaves the breaker
unchanged, so all of `n` concurrent trial checks are admitted. -/
theorem admitCount_half_open (cb : CircuitBreaker) (now n : Nat)
    (h : cb.state = .HALF_OPEN) : admitCount cb now n = n := by
  induction n with
  | zero => rfl
  | succ n ih =>
    have hc : checkCircuitBreaker cb now = (true, cb) := by
      unfold checkCircuitBreaker
      rw [h]
    simp [admitCount, hc, ih]
    omega

/-- C7 counterexample: drive the breaker as the claim describes — five
consecutive failures at time 100 open the circuit, a check at time 60101
(60001 ms later) moves it to HALF_OPEN — and then issue six concurrent
admission checks: all six are admitted, although the claim bounds
concurrent HALF_OPEN trials by `max_trials = 5`.  The code's HALF_OPEN
branch returns true unconditionally and tracks no trial count. -/
theorem half_open_admits_unbounded_trials_cex :
    ((recordFailures 5 initCircuitBreaker 100).state = CBState.OPEN ∧
        (checkCircuitBreaker (recordFailures 5 initCircuitBreaker 100) 101).1 =
          false) ∧
      (checkCircuitBreaker (recordFailures 5 initCircuitBreaker 100)
          60101).2.state = CBState.HALF_OPEN ∧
      admitCount (checkCircuitBreaker (recordFailures 5 initCircuitBreaker 100)
          60101).2 60102 6 = 6 ∧
      ¬ admitCount (checkCircuitBreaker
          (recordFailures 5 initCircuitBreaker 100) 60101).2 60102 6 ≤ 5 := by
  refine ⟨⟨?_, ?_⟩, ?_, ?_, ?_⟩ <;> decide

/-- C7 amended: from the fresh breaker, `threshold = 5` consecutive
recorded failures open the circuit and the next admission check (within
the 60000 ms timeout) returns false; once strictly more than the timeout
has elapsed since the last failure, a check admits and moves the breaker
to HALF_OPEN, where every check admits — there is no cap on concurrent
trial requests — and `resetThreshold = 3` consecutive successes return it
to CLOSED. -/
theorem circuit_breaker_lifecycle (t n₁ n₂ k : Nat)
    (h₁ : n₁ - t ≤ 60000) (h₂ : n₂ - t > 60000) :
    (recordFailures 5 initCircuitBreaker t).state = CBState.OPEN ∧
      (checkCircuitBreaker (recordFailures 5 initCircuitBreaker t) n₁).1 =
        false ∧
      (checkCircuitBreaker (recordFailures 5 initCircuitBreaker t) n₂).1 =
        true ∧
      (checkCircuitBreaker (recordFailures 5 initCircuitBreaker t)
          n₂).2.state = CBState.HALF_OPEN ∧
      admitCount (checkCircuitBreaker (recordFailures 5 initCircuitBreaker t)
          n₂).2 n₂ k = k ∧
      (recordSuccesses 3 (checkCircuitBreaker
          (recordFailures 5 initCircuitBreaker t) n₂).2).state =
        CBState.CLOSED := by
  have hopened : recordFailures 5 initCircuitBreaker t =
      { state := .OPEN, failureCount := 5, lastFailureTime := t
        successCount := 0, threshold := 5, timeout := 60000
        resetThreshold := 3 } := by
    simp [recordFailures, recordFailure, initCircuitBreaker]
  rw [hopened]
  have hfalse : checkCircuitBreaker
      ({ state := .OPEN, failureCount := 5, lastFailureTime := t
         successCount := 0, threshold := 5, timeout := 60000
         resetThreshold := 3 } : CircuitBreaker) n₁ =
      (false, { state := .OPEN, failureCount := 5, lastFailureTime := t
                successCount := 0, threshold := 5, timeout := 60000
                resetThreshold := 3 }) := by
    unfold checkCircuitBreaker
    simp only
    rw [if_neg (by omega)]
  have htrue : checkCircuitBreaker
      ({ state := .OPEN, failureCount := 5, lastFailureTime := t
         successCount := 0, threshold := 5, timeout := 60000
         resetThreshold := 3 } : CircuitBreaker) n₂ =
      (true, { state := .HALF_OPEN, failureCount := 5, lastFailureTime := t
               successCount := 0, threshold := 5, timeout := 60000
               resetThreshold := 3 }) := by
    unfold checkCircuitBreaker
    simp only
    rw [if_pos (by omega)]
  refine ⟨rfl, ?_, ?_, ?_, ?_, ?_⟩
  · rw [hfalse]
  · rw [htrue]
  · rw [htrue]
  · rw [htrue]
    exact admitCount_half_open _ _ _ rfl
  · rw [htrue]
    simp [recordSuccesses, recordSuccess]

/-- Witness for the amended C7 statement with concrete clocks. -/
theorem circuit_breaker_lifecycle_witness :
    (1 : Nat) - 0 ≤ 60000 ∧ (60001 : Nat) - 0 > 60000 ∧
      ((recordFailures 5 initCircuitBreaker 0).state = CBState.OPEN ∧
        (checkCircuitBreaker (recordFailures 5 initCircuitBreaker 0) 1).1 =
          false ∧
        (checkCircuitBreaker (recordFailures 5 initCircuitBreaker 0)
            60001).1 = true ∧
        (checkCircuitBreaker (recordFailures 5 initCircuitBreaker 0)
            60001).2.state = CBState.HALF_OPEN ∧
        admitCount (checkCircuitBreaker (recordFailures 5 initCircuitBreaker 0)
            60001).2 60001 6 = 6 ∧
        (recordSuccesses 3 (checkCircuitBreaker
            (recordFailures 5 initCircuitBreaker 0) 60001).2).state =
          CBState.CLOSED) :=
  ⟨by decide, by decide,
    circuit_breaker_lifecycle 0 1 60001 6 (by decide) (by decide)⟩

end DataGolfService

namespace DataGolfService

/-- Progress of one concurrent `_executeWithCaching` caller for a fixed
cache key, at the granularity of the awaits in the source: `start` is
before `await this.cache.get(cacheKey)`; `fetching` is between the cache
miss and the completion of `await apiCall()`; `done` holds the value the
caller returned. -/
inductive CallerPhase (V : Type) where
  | start
  | fetching
  | done (v : V)
deriving DecidableEq

/-- Shared state for several concurrent `_executeWithCaching` callers of
one key: the tiered cache's value for that key, each caller's phase, and
how many upstream fetches have been started.  The rate limiter and the
circuit breaker are quiescent (under the limit, CLOSED), so their checks
admit every caller and are elided. -/
structure FlightState (V : Type) where
  cache : Option V
  callers : List (CallerPhase V)
  fetchesStarted : Nat
deriving DecidableEq

/-- One atomic step of caller `i`, mirroring `_executeWithCaching`
(requestLogger.test.js lines 862–915): a caller at `start` atomically
reads the cache and, on a hit, returns the cached value; on a miss it
immediately invokes `apiCall()` — the source consults no pending-request
table before doing so — becoming `fetching`.  A caller at `fetching`
completes its fetch with the upstream value, writes it back with
`cache.set`, and returns it. -/
def stepCaller (upstream : V) (st : FlightState V) (i : Nat) : FlightState V :=
  match st.callers.get? i with
  | some .start =>
      match st.cache with
      | some v => { st with callers := st.callers.set i (.done v) }
      | none =>
          { st with
            callers := st.callers.set i .fetching
            fetchesStarted := st.fetchesStarted + 1 }
  | some .fetching =>
      { st with
        cache := some upstream
        callers := st.callers.set i (.done upstream) }
  | _ => st

/-- Run the callers under an interleaving schedule. -/
def runSched (upstream : V) (sched : List Nat) (st : FlightState V) :
    FlightState V :=
  sched.foldl (stepCaller upstream) st

/-- Number of upstream fetches currently in flight. -/
def inFlight (st : FlightState V) : Nat :=
  st.callers.countP (fun c =>
    match c with
    | .fetching => true
    | _ => false)

/-- Two callers for the same absent key, neither yet started. -/
def twoCallers (V : Type) : FlightState V := ⟨none, [.start, .start], 0⟩

/-- C3 counterexample: two concurrent requests for a key absent from every
tier, interleaved so that both pass the cache probe before either fetch
completes (schedule 0, 1), put TWO upstream fetches in flight at once, and
running both to completion (schedule 0, 1, 0, 1) performs two upstream
fetches in total — `_executeWithCaching` has no single-flight
coordination, so the "at most one fetch in flight" contract fails. -/
theorem concurrent_misses_double_fetch_cex :
    inFlight (runSched (42 : Nat) [0, 1] (twoCallers Nat)) = 2 ∧
      ¬ inFlight (runSched (42 : Nat) [0, 1] (twoCallers Nat)) ≤ 1 ∧
      (runSched (42 : Nat) [0, 1, 0, 1] (twoCallers Nat)).fetchesStarted = 2 ∧
      (runSched (42 : Nat) [0, 1, 0, 1] (twoCallers Nat)).fetchesStarted ≠ 1 := by
  refine ⟨?_, ?_, ?_, ?_⟩ <;> decide

/-- C3 amended: there is no single-flight coordination — each caller that
observes a cache miss starts its own upstream fetch.  With two concurrent
callers of an absent key, the interleaving in which both probe the cache
first puts two fetches in flight simultaneously, and completing both
performs two upstream fetches (each caller returning its own fetch's
result). -/
theorem concurrent_misses_each_fetch (V : Type) (v : V) :
    inFlight (runSched v [0, 1] (twoCallers V)) = 2 ∧
      (runSched v [0, 1, 0, 1] (twoCallers V)).fetchesStarted = 2 ∧
      (runSched v [0, 1, 0, 1] (twoCallers V)).callers = [.done v, .done v] := by
  refine ⟨rfl, rfl, rfl⟩

end DataGolfService
